import Mathlib

/-!
Shallow embedding of the signal-detection core of `src/v5.py`
(a Streamlit multi-indicator monitor: Bollinger Bands + MACD + dual EMA).

Prices and volumes are modelled as rationals (`ℚ`).  Pandas NaN values
(the first 19 Bollinger entries, produced by `rolling(window=20)`) are
modelled as `Option ℚ` with `none` for NaN; a comparison against NaN is
false in pandas, which is mirrored by the `Option`-aware comparison
helpers below.  The irrational square root inside the rolling standard
deviation is abstracted as an explicit parameter `sqrtFn : ℚ → ℚ`; every
theorem that relies on it only uses the fact `sqrtFn 0 = 0`, which is
true for the real square root.  The Telegram HTTP POST is modelled as a
function `post : String → Except String Unit` (success or failure); the
`try: ... except: pass` of `send_telegram_msg` becomes a `match` that
discards either outcome.  The Streamlit session-state dictionary
`st.session_state.last_alerts` is modelled as `AlertState`, a total map
from symbol to the optionally stored last alert key.
-/

namespace TrendV5

/-- One OHLCV bar of the raw price series (a row of the fetched
dataframe).  Field `op` is the `Open` column (renamed: `open` is a Lean
keyword), `hi`/`lo` are `High`/`Low`. -/
structure PriceBar where
  op : ℚ
  hi : ℚ
  lo : ℚ
  close : ℚ
  volume : ℚ
  deriving DecidableEq, Repr

/-- One row of the enriched dataframe after `analyze_strategy` has added
the indicator columns (lines 45-60 of `v5.py`).  `bb_mid`, `bb_upper`,
`bb_lower` are `none` where pandas produces NaN (first 19 rows of a
20-bar rolling window). -/
structure EnrichedBar where
  close : ℚ
  volume : ℚ
  bb_mid : Option ℚ
  bb_upper : Option ℚ
  bb_lower : Option ℚ
  macd : ℚ
  macd_signal : ℚ
  macd_hist : ℚ
  ema_f : ℚ
  ema_s : ℚ
  deriving DecidableEq, Repr

/-- `st.session_state.last_alerts`: mapping from symbol to the last
alert key emitted for it (`none` when no alert was ever emitted). -/
abbrev AlertState := String → Option String

/-- The empty alert state present at process start (line 28-29). -/
def emptyAlerts : AlertState := fun _ => none

/-- `p > x?` where `x?` may be NaN: pandas evaluates `p > NaN` to
`False`. -/
def gtOpt (p : ℚ) (x : Option ℚ) : Bool :=
  match x with
  | some v => decide (p > v)
  | none => false

/-- `p < x?` where `x?` may be NaN (false on NaN, as in pandas). -/
def ltOpt (p : ℚ) (x : Option ℚ) : Bool :=
  match x with
  | some v => decide (p < v)
  | none => false

/-- Chained comparison `lo? < p < hi?` of line 101; any NaN operand
makes it false. -/
def betweenOpt (lo : Option ℚ) (p : ℚ) (hi : Option ℚ) : Bool :=
  match lo, hi with
  | some a, some b => decide (a < p) && decide (p < b)
  | _, _ => false

-- Message and level string constants, exactly the literals of v5.py.

/-- Line 68: default message. -/
def msgTrendStable : String := "趨勢穩定"

/-- Line 75: strong-buy message (EMA golden cross with positive MACD
histogram). -/
def msgStrongBuy : String := "🔥 強烈買入 (EMA+MACD)"

/-- Line 77: golden-cross message. -/
def msgGoldenCross : String := "🚀 黃金交叉"

/-- Line 80: death-cross message. -/
def msgDeathCross : String := "💀 死亡交叉"

/-- Line 84: upper-band breakout message. -/
def msgBBUpper : String := "🔔 觸碰布林上軌 (超買)"

/-- Line 86: lower-band breakout message. -/
def msgBBLower : String := "📉 觸碰布林下軌 (超賣)"

/-- Lines 68-80: the EMA-crossover step.  Returns
(message, alert level, has_trigger). -/
def crossoverStep (prev last : EnrichedBar) : String × String × Bool :=
  if prev.ema_f ≤ prev.ema_s ∧ last.ema_f > last.ema_s then
    if last.macd_hist > 0 then (msgStrongBuy, "error", true)
    else (msgGoldenCross, "warning", true)
  else if prev.ema_f ≥ prev.ema_s ∧ last.ema_f < last.ema_s then
    (msgDeathCross, "error", true)
  else (msgTrendStable, "success", false)

/-- Lines 83-86: the Bollinger-breakout step, overriding the message
and alert level of the crossover step (argument `ml`). -/
def bollingerStep (last : EnrichedBar) (ml : String × String) : String × String :=
  if gtOpt last.close last.bb_upper then (msgBBUpper, "warning")
  else if ltOpt last.close last.bb_lower then (msgBBLower, "warning")
  else ml

/-- The full classification chain of lines 68-86: crossover step, then
Bollinger override of message/level.  `has_trigger` comes from the
crossover step alone. -/
def finalClassify (prev last : EnrichedBar) : String × String × Bool :=
  let c := crossoverStep prev last
  let o := bollingerStep last (c.1, c.2.1)
  (o.1, o.2, c.2.2)

/-- Line 89: the de-duplication key `f"{sym}_{msg}"`. -/
def alertKey (sym msg : String) : String := sym ++ "_" ++ msg

/-- The Telegram payload of lines 91-95, with the two numeric
formatting directives (`:.2f`, `:.1f`) elided: the structured content
(symbol, signal message, price, MACD direction, volume ratio) is kept
exactly. -/
structure TgPayload where
  sym : String
  msg : String
  price : ℚ
  macdBull : Bool
  vol_ratio : ℚ
  deriving DecidableEq, Repr

/-- Rendering of the payload into the message text handed to
`send_telegram_msg` (numeric formatting elided, see `TgPayload`). -/
def renderPayload (p : TgPayload) : String :=
  "🎯 *策略達成: " ++ p.sym ++ "*\n【訊號】: " ++ p.msg ++
    "\n【價格】: " ++ toString p.price ++
    "\n【MACD】: " ++ (if p.macdBull then "📈 多方佔優" else "📉 空方佔優") ++
    "\n【量能比】: " ++ toString p.vol_ratio ++ "x"

/-- Lines 17-22: `send_telegram_msg`.  The HTTP POST is the supplied
`post` function; the `try: ... except: pass` discards success and
failure alike, so the function always returns unit. -/
def send_telegram_msg (post : String → Except String Unit) (message : String) : Unit :=
  match post message with
  | Except.ok _ => ()
  | Except.error _ => ()

/-- The `info` dictionary built at lines 99-105. -/
structure Info where
  price : ℚ
  bb_pos : String
  macd_status : String
  trend : String
  msg : String
  alert_level : String
  deriving DecidableEq, Repr

/-- Mean volume of the trailing 10 bars:
`df['Volume'].tail(10).mean()` (line 95). -/
def tailVolMean (bars : List EnrichedBar) : ℚ :=
  let vols := (bars.map (fun b => b.volume)).drop (bars.length - 10)
  vols.sum / (vols.length : ℚ)

/-- The `info` dictionary of lines 99-105, given the final (possibly
overridden) message and alert level. -/
def mkInfo (last : EnrichedBar) (msg alert_level : String) : Info :=
  { price := last.close
    bb_pos := if betweenOpt last.bb_lower last.close last.bb_upper
              then "軌道內" else "軌道外"
    macd_status := if last.macd_hist > 0 then "多頭轉強" else "空頭轉強"
    trend := if last.ema_f > last.ema_s then "多頭 (Bullish)" else "空頭 (Bearish)"
    msg := msg
    alert_level := alert_level }

/-- The notification payload of lines 91-95. -/
def mkPayload (bars : List EnrichedBar) (sym msg : String) (last : EnrichedBar) :
    TgPayload :=
  { sym := sym, msg := msg, price := last.close
    macdBull := decide (last.macd_hist > 0)
    vol_ratio := last.volume / tailVolMean bars }

/-- The signal evaluator: lines 43 and 62-106 of `analyze_strategy`,
acting on the already-enriched series.  (The length guard of line 43 is
placed here: enrichment preserves the number of rows, see
`enrich_length` below.)  Returns the `info` result (or `none` for a
short series), the updated alert state, and the list of notification
payloads attempted this call.  The out-of-range fallback branch models
`iloc[-1]` / `iloc[-2]` failing; `claim_C10_accesses_in_bounds` shows it
is unreachable once the length guard passed. -/
def evaluate (post : String → Except String Unit) (bars : List EnrichedBar)
    (sym : String) (state : AlertState) :
    Option Info × AlertState × List TgPayload :=
  if bars.length < 35 then (none, state, [])
  else
    match bars[bars.length - 1]?, bars[bars.length - 2]? with
    | some last, some prev =>
      let c := finalClassify prev last
      let msg := c.1
      let has_trigger := c.2.2
      let key := alertKey sym msg
      let info := mkInfo last msg c.2.1
      if has_trigger && decide (state sym ≠ some key) then
        let payload := mkPayload bars sym msg last
        let _sent := send_telegram_msg post (renderPayload payload)
        (some info, fun t => if t = sym then some key else state t, [payload])
      else (some info, state, [])
    | _, _ => (none, state, [])

/-- Tail of the recursive exponential moving average: given the
previous EMA value, produce the EMA values of the remaining
observations.  This is pandas `ewm(span=s, adjust=False)`:
`e[i] = α*x[i] + (1-α)*e[i-1]`. -/
def emaFrom (α : ℚ) (prevE : ℚ) : List ℚ → List ℚ
  | [] => []
  | x :: xs =>
    let e := α * x + (1 - α) * prevE
    e :: emaFrom α e xs

/-- `Series.ewm(span=span, adjust=False).mean()`: the smoothing factor
is `α = 2/(span+1)` and the seed is the raw first observation. -/
def emaList (span : ℕ) (xs : List ℚ) : List ℚ :=
  match xs with
  | [] => []
  | x :: rest => x :: emaFrom (2 / ((span : ℚ) + 1)) x rest

/-- The 20-bar trailing window ending at index `i` (inclusive), used by
`rolling(window=w)`. -/
def windowAt (w : ℕ) (xs : List ℚ) (i : ℕ) : List ℚ :=
  (xs.take (i + 1)).drop (i + 1 - w)

/-- `Series.rolling(window=w).mean()` at index `i`: NaN (`none`) until
the window has `w` observations. -/
def rollingMeanAt (w : ℕ) (xs : List ℚ) (i : ℕ) : Option ℚ :=
  if i + 1 < w then none
  else some ((windowAt w xs i).sum / (w : ℚ))

/-- `Series.rolling(window=w).std()` squared at index `i`: the sample
variance (ddof = 1), NaN (`none`) until the window is full.  The
standard deviation itself is `sqrtFn` of this value. -/
def rollingVarAt (w : ℕ) (xs : List ℚ) (i : ℕ) : Option ℚ :=
  if i + 1 < w then none
  else
    let win := windowAt w xs i
    let m := win.sum / (w : ℚ)
    some ((win.map (fun x => (x - m) ^ 2)).sum / ((w : ℚ) - 1))

/-- The enriched row at index `i` produced by lines 45-60 of
`analyze_strategy`: Bollinger (20, 2), MACD (12, 26, 9) and EMA (9, 21)
columns added to the raw series.  `sqrtFn` abstracts the irrational
square root inside the rolling standard deviation. -/
def enrichAt (sqrtFn : ℚ → ℚ) (bars : List PriceBar) (i : ℕ) : EnrichedBar :=
  let closes := bars.map (fun b => b.close)
  let e12 := emaList 12 closes
  let e26 := emaList 26 closes
  let macd := List.zipWith (fun a b => a - b) e12 e26
  let signal := emaList 9 macd
  let hist := List.zipWith (fun a b => a - b) macd signal
  let mid := rollingMeanAt 20 closes i
  let sd := (rollingVarAt 20 closes i).map sqrtFn
  { close := closes.getD i 0
    volume := (bars.map (fun b => b.volume)).getD i 0
    bb_mid := mid
    bb_upper := match mid, sd with
      | some m, some s => some (m + s * 2)
      | _, _ => none
    bb_lower := match mid, sd with
      | some m, some s => some (m - s * 2)
      | _, _ => none
    macd := macd.getD i 0
    macd_signal := signal.getD i 0
    macd_hist := hist.getD i 0
    ema_f := (emaList 9 closes).getD i 0
    ema_s := (emaList 21 closes).getD i 0 }

/-- The Indicator Engine: the enriched dataframe, one `enrichAt` row
per raw row. -/
def enrich (sqrtFn : ℚ → ℚ) (bars : List PriceBar) : List EnrichedBar :=
  (List.range bars.length).map (enrichAt sqrtFn bars)

/-- Lines 42-106: the whole of `analyze_strategy`, from the optional
raw dataframe (`none` models a failed fetch, line 36/40) through
enrichment to the signal evaluation.  The guard of line 43
(`df is None or len(df) < 35`) is split between the `match` here and
the length test inside `evaluate` (enrichment preserves length, see
`enrich_length`).  The returned enriched frame (first component of the
Python return) feeds only the chart layer and is omitted. -/
def analyze_strategy (post : String → Except String Unit) (sqrtFn : ℚ → ℚ)
    (df : Option (List PriceBar)) (sym : String) (state : AlertState) :
    Option Info × AlertState × List TgPayload :=
  match df with
  | none => (none, state, [])
  | some bars => evaluate post (enrich sqrtFn bars) sym state

/-- Enrichment adds columns but never changes the number of rows, so
testing the length before or after enriching is equivalent. -/
theorem enrich_length (sqrtFn : ℚ → ℚ) (bars : List PriceBar) :
    (enrich sqrtFn bars).length = bars.length := by
  simp [enrich]

/-- Row `i` of the enriched frame is `enrichAt` at `i`. -/
theorem enrich_getElem? (sqrtFn : ℚ → ℚ) (bars : List PriceBar) (i : ℕ)
    (h : i < bars.length) :
    (enrich sqrtFn bars)[i]? = some (enrichAt sqrtFn bars i) := by
  simp [enrich, List.getElem?_map, List.getElem?_range h]

/-- A series that passed the length guard has a last and a
second-to-last row. -/
theorem exists_last_prev (bars : List EnrichedBar) (h : 35 ≤ bars.length) :
    ∃ last prev, bars[bars.length - 1]? = some last ∧
      bars[bars.length - 2]? = some prev :=
  ⟨_, _, List.getElem?_eq_getElem (by omega), List.getElem?_eq_getElem (by omega)⟩

/-- Unfolding of `evaluate` once the length guard has passed and the
last two rows are known. -/
theorem evaluate_eq (post : String → Except String Unit)
    (bars : List EnrichedBar) (sym : String) (state : AlertState)
    (prev last : EnrichedBar) (h35 : 35 ≤ bars.length)
    (hl : bars[bars.length - 1]? = some last)
    (hp : bars[bars.length - 2]? = some prev) :
    evaluate post bars sym state =
      (let c := finalClassify prev last
       if c.2.2 && decide (state sym ≠ some (alertKey sym c.1)) then
         (some (mkInfo last c.1 c.2.1),
          fun t => if t = sym then some (alertKey sym c.1) else state t,
          [mkPayload bars sym c.1 last])
       else (some (mkInfo last c.1 c.2.1), state, [])) := by
  unfold evaluate
  rw [if_neg (by omega), hl, hp]

/-- Two alert keys for the same symbol agree only when the messages
do: `sym ++ "_" ++ m` determines `m`. -/
theorem alertKey_inj {s m m' : String} (h : alertKey s m = alertKey s m') :
    m = m' := by
  have hd := congrArg String.data h
  simp only [alertKey, String.data_append, List.append_assoc] at hd
  exact String.ext (List.append_cancel_left (List.append_cancel_left hd))

-- Concrete sample data used by the closed witness theorems.

/-- A neutral filler bar: no crossover, close inside the bands. -/
def sampleBar : EnrichedBar :=
  { close := 100, volume := 10, bb_mid := some 100, bb_upper := some 110,
    bb_lower := some 90, macd := 0, macd_signal := 0, macd_hist := 0,
    ema_f := 10, ema_s := 10 }

/-- Second-to-last bar of the bullish-cross scenario
(`ema_fast = 10 ≤ ema_slow = 11`). -/
def crossPrev : EnrichedBar := { sampleBar with ema_f := 10, ema_s := 11 }

/-- Last bar of the bullish-cross scenario
(`ema_fast = 12 > ema_slow = 11`, positive `macd_hist`). -/
def crossLast : EnrichedBar :=
  { sampleBar with ema_f := 12, ema_s := 11, macd_hist := 1 }

/-- A 35-bar series whose last two bars form a bullish EMA cross with
positive MACD histogram. -/
def crossSeries : List EnrichedBar :=
  List.replicate 33 sampleBar ++ [crossPrev, crossLast]

/-- Last bar with a bullish cross and an upper-band breakout
(`close = 115 > bb_upper = 110`). -/
def crossBreakLast : EnrichedBar := { crossLast with close := 115 }

/-- Bullish cross co-occurring with an upper-band breakout. -/
def crossBreakSeries : List EnrichedBar :=
  List.replicate 33 sampleBar ++ [crossPrev, crossBreakLast]

/-- Upper-band breakout with no crossover at all. -/
def breakOnlyLast : EnrichedBar := { sampleBar with close := 115 }

/-- A 35-bar series whose last bar breaks the upper band without any
EMA crossover. -/
def breakOnlySeries : List EnrichedBar :=
  List.replicate 34 sampleBar ++ [breakOnlyLast]

/-- Last bar of the bearish-cross scenario
(`ema_fast = 9 < ema_slow = 11`). -/
def deathLast : EnrichedBar := { sampleBar with ema_f := 9, ema_s := 11 }

/-- A 35-bar series whose last two bars form a bearish EMA cross. -/
def deathSeries : List EnrichedBar :=
  List.replicate 33 sampleBar ++ [{ sampleBar with ema_f := 12, ema_s := 11 }, deathLast]

/-- A notifier that always succeeds. -/
def okPost : String → Except String Unit := fun _ => Except.ok ()

/-- A notifier whose delivery always fails. -/
def failPost : String → Except String Unit := fun _ => Except.error "timeout"

/-- A constant-price raw bar. -/
def flatBar : PriceBar := { op := 5, hi := 5, lo := 5, close := 5, volume := 7 }

/-- A call whose classification does not trigger returns the result,
leaves the state alone and attempts no notification. -/
theorem evaluate_no_trigger (post : String → Except String Unit)
    (bars : List EnrichedBar) (sym : String) (state : AlertState)
    (prev last : EnrichedBar) (h35 : 35 ≤ bars.length)
    (hl : bars[bars.length - 1]? = some last)
    (hp : bars[bars.length - 2]? = some prev)
    (hf : (finalClassify prev last).2.2 = false) :
    evaluate post bars sym state =
      (some (mkInfo last (finalClassify prev last).1 (finalClassify prev last).2.1),
       state, []) := by
  rw [evaluate_eq post bars sym state prev last h35 hl hp]
  simp [hf]

/-- A triggered call whose alert key is already stored for the symbol
is suppressed: state unchanged, no notification. -/
theorem evaluate_suppressed (post : String → Except String Unit)
    (bars : List EnrichedBar) (sym : String) (state : AlertState)
    (prev last : EnrichedBar) (h35 : 35 ≤ bars.length)
    (hl : bars[bars.length - 1]? = some last)
    (hp : bars[bars.length - 2]? = some prev)
    (hk : state sym = some (alertKey sym (finalClassify prev last).1)) :
    evaluate post bars sym state =
      (some (mkInfo last (finalClassify prev last).1 (finalClassify prev last).2.1),
       state, []) := by
  rw [evaluate_eq post bars sym state prev last h35 hl hp]
  simp [hk]

/-- A triggered call whose alert key differs from the stored one fires:
it attempts the notification and records the new key. -/
theorem evaluate_fires (post : String → Except String Unit)
    (bars : List EnrichedBar) (sym : String) (state : AlertState)
    (prev last : EnrichedBar) (h35 : 35 ≤ bars.length)
    (hl : bars[bars.length - 1]? = some last)
    (hp : bars[bars.length - 2]? = some prev)
    (hf : (finalClassify prev last).2.2 = true)
    (hne : state sym ≠ some (alertKey sym (finalClassify prev last).1)) :
    evaluate post bars sym state =
      (some (mkInfo last (finalClassify prev last).1 (finalClassify prev last).2.1),
       fun t => if t = sym then some (alertKey sym (finalClassify prev last).1)
                else state t,
       [mkPayload bars sym (finalClassify prev last).1 last]) := by
  rw [evaluate_eq post bars sym state prev last h35 hl hp]
  simp [hf, hne]

/-- Once the length guard has passed, the returned `info` is always the
one built from the last bar and the final classification, in every
branch of the de-duplication logic. -/
theorem evaluate_fst (post : String → Except String Unit)
    (bars : List EnrichedBar) (sym : String) (state : AlertState)
    (prev last : EnrichedBar) (h35 : 35 ≤ bars.length)
    (hl : bars[bars.length - 1]? = some last)
    (hp : bars[bars.length - 2]? = some prev) :
    (evaluate post bars sym state).1 =
      some (mkInfo last (finalClassify prev last).1 (finalClassify prev last).2.1) := by
  rw [evaluate_eq post bars sym state prev last h35 hl hp]
  by_cases hb : ((finalClassify prev last).2.2 &&
      decide (state sym ≠ some (alertKey sym (finalClassify prev last).1))) = true
  · rw [if_pos hb]
  · rw [if_neg hb]

/-- After any call that triggered (whether it fired or was
suppressed), the stored key for the symbol is the call's alert key. -/
theorem evaluate_state_after_trigger (post : String → Except String Unit)
    (bars : List EnrichedBar) (sym : String) (state : AlertState)
    (prev last : EnrichedBar) (h35 : 35 ≤ bars.length)
    (hl : bars[bars.length - 1]? = some last)
    (hp : bars[bars.length - 2]? = some prev)
    (hf : (finalClassify prev last).2.2 = true) :
    (evaluate post bars sym state).2.1 sym =
      some (alertKey sym (finalClassify prev last).1) := by
  by_cases hk : state sym = some (alertKey sym (finalClassify prev last).1)
  · rw [evaluate_suppressed post bars sym state prev last h35 hl hp hk]
    exact hk
  · rw [evaluate_fires post bars sym state prev last h35 hl hp hf hk]
    simp

/-- C1: for every input series with fewer than 35 bars, or no series at
all, `analyze_strategy` returns no result: no classification is
produced, no notification payload is attempted, and the alert state is
returned unchanged. -/
theorem claim_C1_short_series_no_result
    (post : String → Except String Unit) (sqrtFn : ℚ → ℚ)
    (df : Option (List PriceBar)) (sym : String) (state : AlertState)
    (h : df = none ∨ ∃ bars, df = some bars ∧ bars.length < 35) :
    analyze_strategy post sqrtFn df sym state = (none, state, []) := by
  rcases h with rfl | ⟨bars, rfl, hlen⟩
  · rfl
  · show evaluate post (enrich sqrtFn bars) sym state = _
    unfold evaluate
    rw [if_pos (by rw [enrich_length]; omega)]

/-- Witness for C1 at a concrete 10-bar series. -/
theorem claim_C1_short_series_no_result_witness :
    analyze_strategy okPost (fun q => q) (some (List.replicate 10 flatBar))
      "AAPL" emptyAlerts = (none, emptyAlerts, []) :=
  claim_C1_short_series_no_result okPost (fun q => q) _ "AAPL" emptyAlerts
    (Or.inr ⟨_, rfl, by decide⟩)

/-- C2: for every enriched series with at least 35 bars, the crossover
step classifies exactly by the last two bars: a bullish cross gives
"strong buy (EMA+MACD)" (`msgStrongBuy`) at critical level (`"error"`)
when the MACD histogram is positive and "golden cross"
(`msgGoldenCross`) at warning level otherwise, both triggering; else a
bearish cross gives "death cross" (`msgDeathCross`) at critical level,
triggering; else "trend stable" (`msgTrendStable`) at info level
(`"success"`), not triggering. -/
theorem claim_C2_crossover_classification
    (bars : List EnrichedBar) (_h35 : 35 ≤ bars.length)
    (prev last : EnrichedBar)
    (_hl : bars[bars.length - 1]? = some last)
    (_hp : bars[bars.length - 2]? = some prev) :
    (prev.ema_f ≤ prev.ema_s ∧ last.ema_f > last.ema_s →
      (last.macd_hist > 0 →
        crossoverStep prev last = (msgStrongBuy, "error", true)) ∧
      (¬ last.macd_hist > 0 →
        crossoverStep prev last = (msgGoldenCross, "warning", true))) ∧
    (¬ (prev.ema_f ≤ prev.ema_s ∧ last.ema_f > last.ema_s) →
      (prev.ema_f ≥ prev.ema_s ∧ last.ema_f < last.ema_s →
        crossoverStep prev last = (msgDeathCross, "error", true)) ∧
      (¬ (prev.ema_f ≥ prev.ema_s ∧ last.ema_f < last.ema_s) →
        crossoverStep prev last = (msgTrendStable, "success", false))) := by
  constructor
  · intro h1
    constructor
    · intro h2; simp [crossoverStep, h1, h2]
    · intro h2; simp [crossoverStep, h1, h2]
  · intro h1
    constructor
    · intro h2; simp [crossoverStep, h1, h2]
    · intro h2; simp [crossoverStep, h1, h2]

/-- Witness for C2: the spec's strong-buy scenario (`ema_fast` 10→12
against `ema_slow` 11, positive `macd_hist`). -/
theorem claim_C2_crossover_classification_witness :
    crossoverStep crossPrev crossLast = (msgStrongBuy, "error", true) :=
  ((claim_C2_crossover_classification crossSeries (by decide)
      crossPrev crossLast rfl rfl).1
    (by constructor <;> norm_num [crossPrev, crossLast, sampleBar])).1
    (by norm_num [crossLast, sampleBar])

/-- C7: every call to `evaluate` preserves the alert-state invariant:
symbols other than the evaluated one are untouched, the evaluated
symbol's entry changes only when this call fires a notification for a
new distinct key (in which case it is set to that key), and entries are
never removed. -/
theorem claim_C7_alert_state_invariant
    (post : String → Except String Unit) (bars : List EnrichedBar)
    (sym : String) (state : AlertState) :
    (∀ t, t ≠ sym → (evaluate post bars sym state).2.1 t = state t) ∧
    ((evaluate post bars sym state).2.1 sym = state sym ∨
      ∃ p, (evaluate post bars sym state).2.2 = [p] ∧ p.sym = sym ∧
        (evaluate post bars sym state).2.1 sym = some (alertKey sym p.msg) ∧
        state sym ≠ some (alertKey sym p.msg)) ∧
    (∀ t k, state t = some k → (evaluate post bars sym state).2.1 t ≠ none) := by
  by_cases hlen : bars.length < 35
  · unfold evaluate
    rw [if_pos hlen]
    exact ⟨fun t _ => rfl, Or.inl rfl, fun t k hk => by simp [hk]⟩
  · have h35 : 35 ≤ bars.length := by omega
    obtain ⟨last, prev, hl, hp⟩ := exists_last_prev bars h35
    rw [evaluate_eq post bars sym state prev last h35 hl hp]
    set c := finalClassify prev last with hc
    by_cases hb : (c.2.2 && decide (state sym ≠ some (alertKey sym c.1))) = true
    · rw [if_pos hb]
      have hne : state sym ≠ some (alertKey sym c.1) := by
        have := (Bool.and_eq_true _ _).mp hb
        exact of_decide_eq_true this.2
      refine ⟨fun t ht => by simp [ht], Or.inr ⟨mkPayload bars sym c.1 last,
        rfl, rfl, by simp [mkPayload], by simpa [mkPayload] using hne⟩, ?_⟩
      intro t k hk
      by_cases ht : t = sym
      · simp [ht]
      · simp [ht, hk]
    · rw [if_neg hb]
      exact ⟨fun t _ => rfl, Or.inl rfl, fun t k hk => by simp [hk]⟩

/-- C10: for every raw series with at least 35 bars, all positional
accesses of `analyze_strategy` are in bounds: the last and
second-to-last enriched rows exist, the last row's 20-bar Bollinger
window (and hence bands) is defined, the trailing 10-bar volume window
has exactly 10 entries, and the out-of-range fallback branch of the
embedded `evaluate` is not taken (a classification is returned). -/
theorem claim_C10_accesses_in_bounds
    (post : String → Except String Unit) (sqrtFn : ℚ → ℚ)
    (bars : List PriceBar) (sym : String) (state : AlertState)
    (h35 : 35 ≤ bars.length) :
    (∃ last, (enrich sqrtFn bars)[(enrich sqrtFn bars).length - 1]? = some last ∧
      last.bb_mid.isSome ∧ last.bb_upper.isSome ∧ last.bb_lower.isSome) ∧
    (∃ prev, (enrich sqrtFn bars)[(enrich sqrtFn bars).length - 2]? = some prev) ∧
    (windowAt 20 (bars.map (fun b => b.close)) (bars.length - 1)).length = 20 ∧
    (((enrich sqrtFn bars).map (fun b => b.volume)).drop
        ((enrich sqrtFn bars).length - 10)).length = 10 ∧
    ∃ info, (analyze_strategy post sqrtFn (some bars) sym state).1 = some info := by
  have hel : (enrich sqrtFn bars).length = bars.length := enrich_length sqrtFn bars
  have hmid : (rollingMeanAt 20 (bars.map (fun b => b.close)) (bars.length - 1)).isSome := by
    rw [rollingMeanAt, if_neg (by omega)]; rfl
  have hvar : (rollingVarAt 20 (bars.map (fun b => b.close)) (bars.length - 1)).isSome := by
    rw [rollingVarAt, if_neg (by omega)]; rfl
  refine ⟨⟨enrichAt sqrtFn bars (bars.length - 1), ?_, ?_⟩,
    ⟨enrichAt sqrtFn bars (bars.length - 2), ?_⟩, ?_, ?_, ?_⟩
  · rw [hel]; exact enrich_getElem? sqrtFn bars (bars.length - 1) (by omega)
  · obtain ⟨m, hm⟩ := Option.isSome_iff_exists.mp hmid
    obtain ⟨v, hv⟩ := Option.isSome_iff_exists.mp hvar
    refine ⟨?_, ?_, ?_⟩ <;> simp [enrichAt, hm, hv]
  · rw [hel]; exact enrich_getElem? sqrtFn bars (bars.length - 2) (by omega)
  · simp only [windowAt, List.length_drop, List.length_take, List.length_map]
    omega
  · simp only [List.length_drop, List.length_map, hel]
    omega
  · show ∃ info, (evaluate post (enrich sqrtFn bars) sym state).1 = some info
    obtain ⟨last, prev, hl, hp⟩ := exists_last_prev (enrich sqrtFn bars) (by omega)
    rw [evaluate_eq post (enrich sqrtFn bars) sym state prev last (by omega) hl hp]
    by_cases hb : ((finalClassify prev last).2.2 &&
        decide (state sym ≠ some (alertKey sym (finalClassify prev last).1))) = true
    · rw [if_pos hb]; exact ⟨_, rfl⟩
    · rw [if_neg hb]; exact ⟨_, rfl⟩

/-- Witness for C10 at a concrete 35-bar constant series. -/
theorem claim_C10_accesses_in_bounds_witness :
    ∃ info, (analyze_strategy okPost (fun q => q)
      (some (List.replicate 35 flatBar)) "AAPL" emptyAlerts).1 = some info :=
  (claim_C10_accesses_in_bounds okPost (fun q => q) (List.replicate 35 flatBar)
    "AAPL" emptyAlerts (by decide)).2.2.2.2

/-- C3: a Bollinger breakout overrides the crossover step's message and
alert level (to the breakout message at warning level) but never changes
`has_trigger`; a breakout with no crossover yields no notification and
an unchanged state regardless of the state's content, while a breakout
co-occurring with a crossover still notifies, keyed by the breakout
message. -/
theorem claim_C3_bollinger_override
    (post : String → Except String Unit) (bars : List EnrichedBar)
    (sym : String) (state : AlertState) (prev last : EnrichedBar)
    (h35 : 35 ≤ bars.length)
    (hl : bars[bars.length - 1]? = some last)
    (hp : bars[bars.length - 2]? = some prev)
    (hbk : (gtOpt last.close last.bb_upper || ltOpt last.close last.bb_lower) = true) :
    (finalClassify prev last).2.2 = (crossoverStep prev last).2.2 ∧
    (finalClassify prev last).2.1 = "warning" ∧
    ((finalClassify prev last).1 = msgBBUpper ∨
      (finalClassify prev last).1 = msgBBLower) ∧
    ((crossoverStep prev last).2.2 = false →
      (evaluate post bars sym state).2.1 = state ∧
      (evaluate post bars sym state).2.2 = [] ∧
      (evaluate post bars sym state).1 =
        some (mkInfo last (finalClassify prev last).1 "warning")) ∧
    ((crossoverStep prev last).2.2 = true →
      state sym ≠ some (alertKey sym (finalClassify prev last).1) →
      (evaluate post bars sym state).2.2 =
        [mkPayload bars sym (finalClassify prev last).1 last] ∧
      (evaluate post bars sym state).2.1 sym =
        some (alertKey sym (finalClassify prev last).1)) := by
  have htrig : (finalClassify prev last).2.2 = (crossoverStep prev last).2.2 := rfl
  have hml : (finalClassify prev last).2.1 = "warning" ∧
      ((finalClassify prev last).1 = msgBBUpper ∨
        (finalClassify prev last).1 = msgBBLower) := by
    by_cases hg : gtOpt last.close last.bb_upper = true
    · exact ⟨by simp [finalClassify, bollingerStep, hg],
        Or.inl (by simp [finalClassify, bollingerStep, hg])⟩
    · have hlt : ltOpt last.close last.bb_lower = true := by
        rcases (by simpa using hbk : gtOpt last.close last.bb_upper = true ∨
            ltOpt last.close last.bb_lower = true) with h | h
        · exact absurd h hg
        · exact h
      exact ⟨by simp [finalClassify, bollingerStep, hg, hlt],
        Or.inr (by simp [finalClassify, bollingerStep, hg, hlt])⟩
  refine ⟨htrig, hml.1, hml.2, ?_, ?_⟩
  · intro hf
    have hf2 : (finalClassify prev last).2.2 = false := htrig.trans hf
    rw [evaluate_no_trigger post bars sym state prev last h35 hl hp hf2]
    exact ⟨rfl, rfl, by rw [hml.1]⟩
  · intro hf hne
    have hf2 : (finalClassify prev last).2.2 = true := htrig.trans hf
    rw [evaluate_fires post bars sym state prev last h35 hl hp hf2 hne]
    exact ⟨rfl, by simp⟩

/-- Witness for C3: bullish cross co-occurring with an upper-band
breakout (`close = 115 > bb_upper = 110`). -/
theorem claim_C3_bollinger_override_witness :
    (finalClassify crossPrev crossBreakLast).2.2 =
      (crossoverStep crossPrev crossBreakLast).2.2 ∧
    (finalClassify crossPrev crossBreakLast).2.1 = "warning" ∧
    ((finalClassify crossPrev crossBreakLast).1 = msgBBUpper ∨
      (finalClassify crossPrev crossBreakLast).1 = msgBBLower) ∧
    ((crossoverStep crossPrev crossBreakLast).2.2 = false →
      (evaluate okPost crossBreakSeries "AAPL" emptyAlerts).2.1 = emptyAlerts ∧
      (evaluate okPost crossBreakSeries "AAPL" emptyAlerts).2.2 = [] ∧
      (evaluate okPost crossBreakSeries "AAPL" emptyAlerts).1 =
        some (mkInfo crossBreakLast (finalClassify crossPrev crossBreakLast).1
          "warning")) ∧
    ((crossoverStep crossPrev crossBreakLast).2.2 = true →
      emptyAlerts "AAPL" ≠
        some (alertKey "AAPL" (finalClassify crossPrev crossBreakLast).1) →
      (evaluate okPost crossBreakSeries "AAPL" emptyAlerts).2.2 =
        [mkPayload crossBreakSeries "AAPL"
          (finalClassify crossPrev crossBreakLast).1 crossBreakLast] ∧
      (evaluate okPost crossBreakSeries "AAPL" emptyAlerts).2.1 "AAPL" =
        some (alertKey "AAPL" (finalClassify crossPrev crossBreakLast).1)) :=
  claim_C3_bollinger_override okPost crossBreakSeries "AAPL" emptyAlerts
    crossPrev crossBreakLast (by decide) rfl rfl (by decide)

/-- C4: de-duplication is idempotent per key: the first call attempts
at most one notification, an immediate second call on the identical
series and resulting state attempts none, and a later triggering
evaluation with a different final message for the same symbol notifies
again. -/
theorem claim_C4_dedup_idempotent
    (post : String → Except String Unit) (bars bars2 : List EnrichedBar)
    (sym : String) (state : AlertState)
    (prev last prev2 last2 : EnrichedBar)
    (h35 : 35 ≤ bars.length) (h35b : 35 ≤ bars2.length)
    (hl : bars[bars.length - 1]? = some last)
    (hp : bars[bars.length - 2]? = some prev)
    (hl2 : bars2[bars2.length - 1]? = some last2)
    (hp2 : bars2[bars2.length - 2]? = some prev2) :
    ((evaluate post bars sym state).2.2).length ≤ 1 ∧
    (evaluate post bars sym ((evaluate post bars sym state).2.1)).2.2 = [] ∧
    ((finalClassify prev last).2.2 = true →
      (finalClassify prev2 last2).2.2 = true →
      (finalClassify prev2 last2).1 ≠ (finalClassify prev last).1 →
      (evaluate post bars2 sym ((evaluate post bars sym state).2.1)).2.2 ≠ []) := by
  refine ⟨?_, ?_, ?_⟩
  · by_cases hf : (finalClassify prev last).2.2 = true
    · by_cases hk : state sym = some (alertKey sym (finalClassify prev last).1)
      · rw [evaluate_suppressed post bars sym state prev last h35 hl hp hk]
        simp
      · rw [evaluate_fires post bars sym state prev last h35 hl hp hf hk]
        simp
    · rw [evaluate_no_trigger post bars sym state prev last h35 hl hp
        (Bool.not_eq_true _ ▸ hf)]
      simp
  · by_cases hf : (finalClassify prev last).2.2 = true
    · have hk2 : (evaluate post bars sym state).2.1 sym =
          some (alertKey sym (finalClassify prev last).1) :=
        evaluate_state_after_trigger post bars sym state prev last h35 hl hp hf
      rw [evaluate_suppressed post bars sym _ prev last h35 hl hp hk2]
    · have hf2 : (finalClassify prev last).2.2 = false := Bool.not_eq_true _ ▸ hf
      rw [evaluate_no_trigger post bars sym state prev last h35 hl hp hf2]
      rw [evaluate_no_trigger post bars sym state prev last h35 hl hp hf2]
  · intro hf1 hf2 hmsg
    have hk1 : (evaluate post bars sym state).2.1 sym =
        some (alertKey sym (finalClassify prev last).1) :=
      evaluate_state_after_trigger post bars sym state prev last h35 hl hp hf1
    have hne : (evaluate post bars sym state).2.1 sym ≠
        some (alertKey sym (finalClassify prev2 last2).1) := by
      rw [hk1]
      intro h
      exact hmsg (alertKey_inj (Option.some_injective _ h).symm)
    rw [evaluate_fires post bars2 sym _ prev2 last2 h35b hl2 hp2 hf2 hne]
    simp

/-- Witness for C4: strong-buy cycle on `crossSeries`, then a
death-cross cycle on `deathSeries` for the same symbol. -/
theorem claim_C4_dedup_idempotent_witness :
    ((evaluate okPost crossSeries "AAPL" emptyAlerts).2.2).length ≤ 1 ∧
    (evaluate okPost crossSeries "AAPL"
      ((evaluate okPost crossSeries "AAPL" emptyAlerts).2.1)).2.2 = [] ∧
    ((finalClassify crossPrev crossLast).2.2 = true →
      (finalClassify { sampleBar with ema_f := 12, ema_s := 11 } deathLast).2.2 = true →
      (finalClassify { sampleBar with ema_f := 12, ema_s := 11 } deathLast).1 ≠
        (finalClassify crossPrev crossLast).1 →
      (evaluate okPost deathSeries "AAPL"
        ((evaluate okPost crossSeries "AAPL" emptyAlerts).2.1)).2.2 ≠ []) :=
  claim_C4_dedup_idempotent okPost crossSeries deathSeries "AAPL" emptyAlerts
    crossPrev crossLast { sampleBar with ema_f := 12, ema_s := 11 } deathLast
    (by decide) (by decide) rfl rfl rfl rfl

/-- Counterexample to C5 as stated: on a concrete strong-buy series the
key stored (and used for de-duplication) is
`"AAPL" ++ "_" ++ message`, not `"AAPL" ++ "::" ++ message`. -/
theorem claim_C5_sep_counterexample :
    (evaluate okPost crossSeries "AAPL" emptyAlerts).2.1 "AAPL" =
      some (alertKey "AAPL" msgStrongBuy) ∧
    (evaluate okPost crossSeries "AAPL" emptyAlerts).2.1 "AAPL" ≠
      some ("AAPL" ++ "::" ++ msgStrongBuy) ∧
    (evaluate okPost crossSeries "AAPL" emptyAlerts).1 =
      some (mkInfo crossLast msgStrongBuy "error") := by
  refine ⟨?_, ?_, ?_⟩ <;> decide

/-- C5 (amended): the de-duplication key equals
`symbol ++ "_" ++ message` — underscore separator, with `message` the
final post-override message: the key is what a firing call stores, and
the returned `info.msg` is exactly the message component. -/
theorem claim_C5_key_underscore
    (post : String → Except String Unit) (bars : List EnrichedBar)
    (sym : String) (state : AlertState) (prev last : EnrichedBar)
    (h35 : 35 ≤ bars.length)
    (hl : bars[bars.length - 1]? = some last)
    (hp : bars[bars.length - 2]? = some prev) :
    alertKey sym (finalClassify prev last).1 =
      sym ++ "_" ++ (finalClassify prev last).1 ∧
    ((finalClassify prev last).2.2 = true →
      state sym ≠ some (alertKey sym (finalClassify prev last).1) →
      (evaluate post bars sym state).2.2 =
        [mkPayload bars sym (finalClassify prev last).1 last] ∧
      (evaluate post bars sym state).2.1 sym =
        some (sym ++ "_" ++ (finalClassify prev last).1)) ∧
    (∀ i, (evaluate post bars sym state).1 = some i →
      i.msg = (finalClassify prev last).1) := by
  refine ⟨rfl, ?_, ?_⟩
  · intro hf hne
    rw [evaluate_fires post bars sym state prev last h35 hl hp hf hne]
    exact ⟨rfl, by simp [alertKey]⟩
  · intro i hi
    rw [evaluate_fst post bars sym state prev last h35 hl hp] at hi
    cases hi
    rfl

/-- Witness for the amended C5 on the concrete strong-buy series. -/
theorem claim_C5_key_underscore_witness :
    alertKey "AAPL" (finalClassify crossPrev crossLast).1 =
      "AAPL" ++ "_" ++ (finalClassify crossPrev crossLast).1 ∧
    ((finalClassify crossPrev crossLast).2.2 = true →
      emptyAlerts "AAPL" ≠
        some (alertKey "AAPL" (finalClassify crossPrev crossLast).1) →
      (evaluate okPost crossSeries "AAPL" emptyAlerts).2.2 =
        [mkPayload crossSeries "AAPL" (finalClassify crossPrev crossLast).1
          crossLast] ∧
      (evaluate okPost crossSeries "AAPL" emptyAlerts).2.1 "AAPL" =
        some ("AAPL" ++ "_" ++ (finalClassify crossPrev crossLast).1)) ∧
    (∀ i, (evaluate okPost crossSeries "AAPL" emptyAlerts).1 = some i →
      i.msg = (finalClassify crossPrev crossLast).1) :=
  claim_C5_key_underscore okPost crossSeries "AAPL" emptyAlerts
    crossPrev crossLast (by decide) rfl rfl

/-- C6: a notification delivery failure is swallowed entirely:
`send_telegram_msg` returns unit whatever the POST outcome, the whole
evaluation result is independent of the delivery function, and under
the trigger condition the state is still updated to the new alert key
and the notification attempt is still recorded. -/
theorem claim_C6_delivery_failure_swallowed
    (post post2 : String → Except String Unit) (m : String)
    (bars : List EnrichedBar) (sym : String) (state : AlertState)
    (prev last : EnrichedBar) (h35 : 35 ≤ bars.length)
    (hl : bars[bars.length - 1]? = some last)
    (hp : bars[bars.length - 2]? = some prev) :
    send_telegram_msg post m = () ∧
    evaluate post bars sym state = evaluate post2 bars sym state ∧
    ((finalClassify prev last).2.2 = true →
      state sym ≠ some (alertKey sym (finalClassify prev last).1) →
      (evaluate post bars sym state).2.1 sym =
        some (alertKey sym (finalClassify prev last).1) ∧
      (evaluate post bars sym state).2.2 ≠ []) := by
  refine ⟨rfl, rfl, ?_⟩
  intro hf hne
  rw [evaluate_fires post bars sym state prev last h35 hl hp hf hne]
  exact ⟨by simp, by simp⟩

/-- Witness for C6 with a delivery function that always fails. -/
theorem claim_C6_delivery_failure_swallowed_witness :
    send_telegram_msg failPost "hello" = () ∧
    evaluate failPost crossSeries "AAPL" emptyAlerts =
      evaluate okPost crossSeries "AAPL" emptyAlerts ∧
    ((finalClassify crossPrev crossLast).2.2 = true →
      emptyAlerts "AAPL" ≠
        some (alertKey "AAPL" (finalClassify crossPrev crossLast).1) →
      (evaluate failPost crossSeries "AAPL" emptyAlerts).2.1 "AAPL" =
        some (alertKey "AAPL" (finalClassify crossPrev crossLast).1) ∧
      (evaluate failPost crossSeries "AAPL" emptyAlerts).2.2 ≠ []) :=
  claim_C6_delivery_failure_swallowed failPost okPost "hello" crossSeries
    "AAPL" emptyAlerts crossPrev crossLast (by decide) rfl rfl

/-- C9: the display-only fields of the returned result come from the
final last bar, independently of the message chain: `bb_pos` is inside
iff `bb_lower < close < bb_upper`, `macd_status` is bullish iff
`macd_hist > 0`, `trend` is bullish iff `ema_fast > ema_slow`, and the
price is the last close. -/
theorem claim_C9_display_fields
    (post : String → Except String Unit) (bars : List EnrichedBar)
    (sym : String) (state : AlertState) (prev last : EnrichedBar)
    (h35 : 35 ≤ bars.length)
    (hl : bars[bars.length - 1]? = some last)
    (hp : bars[bars.length - 2]? = some prev)
    (lo hi : ℚ) (hlo : last.bb_lower = some lo) (hhi : last.bb_upper = some hi) :
    ∀ i, (evaluate post bars sym state).1 = some i →
      i.price = last.close ∧
      i.bb_pos = (if lo < last.close ∧ last.close < hi then "軌道內" else "軌道外") ∧
      i.macd_status = (if last.macd_hist > 0 then "多頭轉強" else "空頭轉強") ∧
      i.trend = (if last.ema_f > last.ema_s then "多頭 (Bullish)"
                 else "空頭 (Bearish)") := by
  intro i hi
  rw [evaluate_fst post bars sym state prev last h35 hl hp] at hi
  cases hi
  refine ⟨rfl, ?_, rfl, rfl⟩
  show (if betweenOpt last.bb_lower last.close last.bb_upper
        then "軌道內" else "軌道外") = _
  rw [hlo, hhi]
  by_cases hin : lo < last.close ∧ last.close < hi
  · rw [if_pos hin]
    simp [betweenOpt, hin.1, hin.2]
  · rw [if_neg hin]
    rcases not_and_or.mp hin with h | h <;> simp [betweenOpt, h]

/-- Witness for C9 on the concrete strong-buy series
(`bb_lower = 90 < close = 100 < bb_upper = 110`). -/
theorem claim_C9_display_fields_witness :
    (mkInfo crossLast msgStrongBuy "error").price = crossLast.close ∧
    (mkInfo crossLast msgStrongBuy "error").bb_pos =
      (if (90:ℚ) < crossLast.close ∧ crossLast.close < 110
       then "軌道內" else "軌道外") ∧
    (mkInfo crossLast msgStrongBuy "error").macd_status =
      (if crossLast.macd_hist > 0 then "多頭轉強" else "空頭轉強") ∧
    (mkInfo crossLast msgStrongBuy "error").trend =
      (if crossLast.ema_f > crossLast.ema_s then "多頭 (Bullish)"
       else "空頭 (Bearish)") :=
  claim_C9_display_fields okPost crossSeries "AAPL" emptyAlerts
    crossPrev crossLast (by decide) rfl rfl 90 110 rfl rfl
    (mkInfo crossLast msgStrongBuy "error") (by decide)

-- Constant-price lemmas for the Indicator Engine.

/-- A recursive EMA seeded at the constant value of a constant series
stays at that value. -/
theorem emaFrom_const (α c : ℚ) (m : ℕ) :
    emaFrom α c (List.replicate m c) = List.replicate m c := by
  induction m with
  | zero => rfl
  | succ n ih =>
    have he : α * c + (1 - α) * c = c := by ring
    simp only [List.replicate_succ, emaFrom, he, ih]

/-- The EMA of a constant series is that constant series. -/
theorem emaList_const (s n : ℕ) (c : ℚ) :
    emaList s (List.replicate n c) = List.replicate n c := by
  cases n with
  | zero => rfl
  | succ m => simp only [List.replicate_succ, emaList, emaFrom_const]

/-- `getD` inside a replicate list. -/
theorem getD_replicate {α : Type} (a d : α) {n i : ℕ} (h : i < n) :
    (List.replicate n a).getD i d = a := by
  rw [List.getD_eq_getElem?_getD, List.getElem?_replicate, if_pos h]
  rfl

/-- The full trailing window over a constant series is constant. -/
theorem windowAt_const (c : ℚ) {n i w : ℕ} (hw : w ≤ i + 1) (hi : i < n) :
    windowAt w (List.replicate n c) i = List.replicate w c := by
  simp only [windowAt, List.take_replicate, List.drop_replicate]
  congr 1
  omega

/-- The 20-bar rolling mean of a constant series, after warm-up, is the
constant. -/
theorem rollingMeanAt_const (c : ℚ) {n i : ℕ} (h19 : 19 ≤ i) (hi : i < n) :
    rollingMeanAt 20 (List.replicate n c) i = some c := by
  rw [rollingMeanAt, if_neg (by omega), windowAt_const c (by omega) hi]
  have hsum : (List.replicate 20 c).sum = (20 : ℚ) * c := by
    rw [List.sum_replicate, nsmul_eq_mul]; norm_num
  rw [hsum]
  norm_num

/-- The 20-bar rolling sample variance of a constant series, after
warm-up, is zero. -/
theorem rollingVarAt_const (c : ℚ) {n i : ℕ} (h19 : 19 ≤ i) (hi : i < n) :
    rollingVarAt 20 (List.replicate n c) i = some 0 := by
  rw [rollingVarAt, if_neg (by omega)]
  rw [windowAt_const c (by omega) hi]
  have hsum : (List.replicate 20 c).sum = (20 : ℚ) * c := by
    rw [List.sum_replicate, nsmul_eq_mul]; norm_num
  have hm : (List.replicate 20 c).sum / ((20 : ℕ) : ℚ) = c := by
    rw [hsum]; norm_num
  simp only [hm, List.map_replicate]
  simp

/-- On a constant-price series every enriched row carries equal fast
and slow EMAs (both the constant), zero MACD histogram, and the
constant close; after the 20-bar warm-up the Bollinger bands collapse
onto the close. -/
theorem enrichAt_const (sqrtFn : ℚ → ℚ) (bars : List PriceBar) (c : ℚ) (i : ℕ)
    (hc : ∀ b ∈ bars, b.close = c) (hi : i < bars.length) :
    (enrichAt sqrtFn bars i).close = c ∧
    (enrichAt sqrtFn bars i).ema_f = c ∧
    (enrichAt sqrtFn bars i).ema_s = c ∧
    (enrichAt sqrtFn bars i).macd_hist = 0 ∧
    (19 ≤ i → sqrtFn 0 = 0 →
      (enrichAt sqrtFn bars i).bb_mid = some c ∧
      (enrichAt sqrtFn bars i).bb_upper = some c ∧
      (enrichAt sqrtFn bars i).bb_lower = some c) := by
  have hcl : bars.map (fun b => b.close) = List.replicate bars.length c :=
    List.eq_replicate_iff.mpr ⟨by simp, by simpa using hc⟩
  unfold enrichAt
  simp only [hcl, emaList_const, List.zipWith_replicate, min_self, sub_self,
    emaList_const, getD_replicate _ _ hi]
  refine ⟨by trivial, by trivial, by trivial, by trivial, ?_⟩
  intro h19 hs
  rw [rollingMeanAt_const c h19 hi, rollingVarAt_const c h19 hi]
  simp [hs]

/-- The crossover step is "trend stable" when neither cross condition
holds. -/
theorem crossoverStep_stable (prev last : EnrichedBar)
    (h1 : ¬ (prev.ema_f ≤ prev.ema_s ∧ last.ema_f > last.ema_s))
    (h2 : ¬ (prev.ema_f ≥ prev.ema_s ∧ last.ema_f < last.ema_s)) :
    crossoverStep prev last = (msgTrendStable, "success", false) := by
  rw [crossoverStep, if_neg h1, if_neg h2]

/-- The Bollinger step passes the crossover result through when no
breakout occurs. -/
theorem bollingerStep_id (last : EnrichedBar) (ml : String × String)
    (hg : gtOpt last.close last.bb_upper = false)
    (hlt : ltOpt last.close last.bb_lower = false) :
    bollingerStep last ml = ml := by
  rw [bollingerStep, if_neg (by simp [hg]), if_neg (by simp [hlt])]

/-- C8: for every series of at least 35 bars with constant close price,
the Bollinger bands collapse onto the close after the 20-bar warm-up
(`bb_upper = bb_lower = bb_mid = close`), the MACD histogram is zero on
every row, no EMA crossover ever triggers on any pair of adjacent rows,
and the evaluation returns the "trend stable" info at info level with
the state unchanged and no notification attempted. -/
theorem claim_C8_constant_price_stable
    (post : String → Except String Unit) (sqrtFn : ℚ → ℚ)
    (bars : List PriceBar) (c : ℚ) (sym : String) (state : AlertState)
    (h35 : 35 ≤ bars.length) (hc : ∀ b ∈ bars, b.close = c)
    (hs : sqrtFn 0 = 0) :
    (∀ i, 19 ≤ i → i < bars.length →
      ∃ e, (enrich sqrtFn bars)[i]? = some e ∧ e.bb_upper = some c ∧
        e.bb_lower = some c ∧ e.bb_mid = some c ∧ e.close = c ∧
        e.macd_hist = 0) ∧
    (∀ (i : ℕ) (e : EnrichedBar), (enrich sqrtFn bars)[i]? = some e →
      e.macd_hist = 0) ∧
    (∀ (i : ℕ) (e e' : EnrichedBar), (enrich sqrtFn bars)[i]? = some e →
      (enrich sqrtFn bars)[i + 1]? = some e' →
      crossoverStep e e' = (msgTrendStable, "success", false)) ∧
    analyze_strategy post sqrtFn (some bars) sym state =
      (some { price := c, bb_pos := "軌道外", macd_status := "空頭轉強",
              trend := "空頭 (Bearish)", msg := msgTrendStable,
              alert_level := "success" }, state, []) := by
  have hmem : ∀ {i : ℕ} {e : EnrichedBar}, (enrich sqrtFn bars)[i]? = some e →
      e = enrichAt sqrtFn bars i ∧ i < bars.length := by
    intro i e he
    have hlt : i < bars.length := by
      by_contra hge
      have hnone : (enrich sqrtFn bars)[i]? = none :=
        List.getElem?_eq_none (by rw [enrich_length]; omega)
      rw [hnone] at he
      exact Option.noConfusion he
    rw [enrich_getElem? sqrtFn bars i hlt] at he
    exact ⟨(Option.some_injective _ he).symm, hlt⟩
  refine ⟨?_, ?_, ?_, ?_⟩
  · intro i h19 hi
    obtain ⟨_, _, _, hh, hbb⟩ := enrichAt_const sqrtFn bars c i hc hi
    obtain ⟨hm, hu, hlw⟩ := hbb h19 hs
    exact ⟨enrichAt sqrtFn bars i, enrich_getElem? sqrtFn bars i hi, hu, hlw, hm,
      (enrichAt_const sqrtFn bars c i hc hi).1, hh⟩
  · intro i e he
    obtain ⟨rfl, hi⟩ := hmem he
    exact (enrichAt_const sqrtFn bars c i hc hi).2.2.2.1
  · intro i e e' he he'
    obtain ⟨rfl, hi⟩ := hmem he
    obtain ⟨rfl, hi'⟩ := hmem he'
    obtain ⟨_, hf, hsl, _, _⟩ := enrichAt_const sqrtFn bars c i hc hi
    obtain ⟨_, hf', hsl', _, _⟩ := enrichAt_const sqrtFn bars c (i + 1) hc hi'
    exact crossoverStep_stable _ _ (by simp [hf', hsl']) (by simp [hf', hsl'])
  · show evaluate post (enrich sqrtFn bars) sym state = _
    have hel : (enrich sqrtFn bars).length = bars.length := enrich_length sqrtFn bars
    have hl : (enrich sqrtFn bars)[(enrich sqrtFn bars).length - 1]? =
        some (enrichAt sqrtFn bars (bars.length - 1)) := by
      rw [hel]; exact enrich_getElem? sqrtFn bars _ (by omega)
    have hp : (enrich sqrtFn bars)[(enrich sqrtFn bars).length - 2]? =
        some (enrichAt sqrtFn bars (bars.length - 2)) := by
      rw [hel]; exact enrich_getElem? sqrtFn bars _ (by omega)
    obtain ⟨hcl, hf, hsl, hh, hbb⟩ :=
      enrichAt_const sqrtFn bars c (bars.length - 1) hc (by omega)
    obtain ⟨hm, hu, hlw⟩ := hbb (by omega) hs
    obtain ⟨_, hf2, hsl2, _, _⟩ :=
      enrichAt_const sqrtFn bars c (bars.length - 2) hc (by omega)
    have hcross : crossoverStep (enrichAt sqrtFn bars (bars.length - 2))
        (enrichAt sqrtFn bars (bars.length - 1)) =
        (msgTrendStable, "success", false) :=
      crossoverStep_stable _ _ (by simp [hf, hsl]) (by simp [hf, hsl])
    have hg : gtOpt (enrichAt sqrtFn bars (bars.length - 1)).close
        (enrichAt sqrtFn bars (bars.length - 1)).bb_upper = false := by
      rw [hcl, hu]; simp [gtOpt]
    have hlt2 : ltOpt (enrichAt sqrtFn bars (bars.length - 1)).close
        (enrichAt sqrtFn bars (bars.length - 1)).bb_lower = false := by
      rw [hcl, hlw]; simp [ltOpt]
    have hfin : finalClassify (enrichAt sqrtFn bars (bars.length - 2))
        (enrichAt sqrtFn bars (bars.length - 1)) =
        (msgTrendStable, "success", false) := by
      simp only [finalClassify, hcross, bollingerStep_id _ _ hg hlt2]
    rw [evaluate_no_trigger post (enrich sqrtFn bars) sym state
      (enrichAt sqrtFn bars (bars.length - 2))
      (enrichAt sqrtFn bars (bars.length - 1)) (by omega) hl hp (by rw [hfin])]
    rw [hfin]
    simp only [mkInfo, hcl, hu, hlw, hh, hf, hsl]
    rw [if_neg (by simp [betweenOpt]), if_neg (by simp), if_neg (by simp)]

/-- Witness for C8 at a concrete 35-bar series of constant close 5. -/
theorem claim_C8_constant_price_stable_witness :
    analyze_strategy okPost (fun q => q) (some (List.replicate 35 flatBar))
      "AAPL" emptyAlerts =
      (some { price := 5, bb_pos := "軌道外", macd_status := "空頭轉強",
              trend := "空頭 (Bearish)", msg := msgTrendStable,
              alert_level := "success" }, emptyAlerts, []) :=
  (claim_C8_constant_price_stable okPost (fun q => q) (List.replicate 35 flatBar)
    5 "AAPL" emptyAlerts (by decide)
    (fun b hb => by rw [List.eq_of_mem_replicate hb]; rfl) rfl).2.2.2

end TrendV5
